import Mathlib

/-!
Verification of the fan-control repository: the fan-curve model of
`plot_fan_curve.py` and the smoothing / statistics / legend pipeline of
`plot_custom_curve.py`, shallowly embedded over the rationals.
-/

/-! ## Fan curve model (`plot_fan_curve.py`) -/

/-- Constant `TEMP_MIN = 50` (°C) from `plot_fan_curve.py`. -/
def TEMP_MIN : ℚ := 50

/-- Constant `TEMP_MAX = 75` (°C) from `plot_fan_curve.py`. -/
def TEMP_MAX : ℚ := 75

/-- Constant `FAN_MIN = 20` (PWM) from `plot_fan_curve.py`. -/
def FAN_MIN : ℚ := 20

/-- Constant `FAN_MAX = 255` (PWM) from `plot_fan_curve.py`. -/
def FAN_MAX : ℚ := 255

/-- Embedding of `calculate_fan_speed` (`plot_fan_curve.py`, lines 14-25):
cubic interpolation from `TEMP_MIN` to `TEMP_MAX`, clamped above at
`FAN_MAX` by `min`.  Exact rational arithmetic stands in for Python
floats. -/
def calculate_fan_speed (temp : ℚ) : ℚ :=
  let temp_diff := temp - TEMP_MIN
  let range_temp := TEMP_MAX - TEMP_MIN
  let fan_range := FAN_MAX - FAN_MIN
  let temp_factor := temp_diff ^ 3
  let range_factor := range_temp ^ 3
  let speed := FAN_MIN + temp_factor * fan_range / range_factor
  min speed FAN_MAX

/-- The duty percentage plotted by `plot_fan_curve.py` line 28:
`calculate_fan_speed(t) * 100 / 255`. -/
def duty (temp : ℚ) : ℚ :=
  calculate_fan_speed temp * 100 / 255

/-- C1: with the constants of the source, `duty 50 = 2000/255`,
`duty 75 = 100`, and `duty 62.5 = 49.375 * 100 / 255`, in exact rational
arithmetic. -/
theorem duty_concrete_values :
    duty 50 = 2000 / 255 ∧ duty 75 = 100 ∧
      duty (125 / 2) = (395 / 8) * 100 / 255 := by
  refine ⟨?_, ?_, ?_⟩ <;>
    norm_num [duty, calculate_fan_speed, TEMP_MIN, TEMP_MAX, FAN_MIN,
      FAN_MAX, min_def]

/-- The unclamped cubic is monotone, hence so is the clamped speed. -/
lemma calculate_fan_speed_mono {t1 t2 : ℚ} (h : t1 ≤ t2) :
    calculate_fan_speed t1 ≤ calculate_fan_speed t2 := by
  unfold calculate_fan_speed
  simp only [TEMP_MIN, TEMP_MAX, FAN_MIN, FAN_MAX]
  apply min_le_min _ le_rfl
  have hc : (t1 - 50) ^ 3 ≤ (t2 - 50) ^ 3 := by
    nlinarith [sq_nonneg (t1 + t2 - 100), sq_nonneg (t1 - t2),
      sq_nonneg (t1 - 50), sq_nonneg (t2 - 50)]
  linarith

/-- C3: `duty` is non-decreasing on the closed interval
`[TEMP_MIN, TEMP_MAX]`. -/
theorem duty_nondecreasing_on_range (t1 t2 : ℚ) (h1 : TEMP_MIN ≤ t1)
    (h12 : t1 ≤ t2) (h2 : t2 ≤ TEMP_MAX) : duty t1 ≤ duty t2 := by
  unfold duty
  have := calculate_fan_speed_mono h12
  linarith

/-- Witness for C3 at the concrete pair (55, 60). -/
theorem duty_nondecreasing_on_range_witness :
    TEMP_MIN ≤ (55 : ℚ) ∧ (55 : ℚ) ≤ 60 ∧ (60 : ℚ) ≤ TEMP_MAX ∧
      duty 55 ≤ duty 60 :=
  ⟨by norm_num [TEMP_MIN], by norm_num, by norm_num [TEMP_MAX],
    duty_nondecreasing_on_range 55 60 (by norm_num [TEMP_MIN]) (by norm_num)
      (by norm_num [TEMP_MAX])⟩

/-- C4: for every input at or above the floor, the duty percentage never
exceeds `FAN_MAX * 100 / 255` (the `min` clamps the raw duty at
`FAN_MAX`, so the percentage never exceeds 100%). -/
theorem duty_never_exceeds_max (temp : ℚ) (h : TEMP_MIN ≤ temp) :
    duty temp ≤ FAN_MAX * 100 / 255 := by
  unfold duty
  have hle : calculate_fan_speed temp ≤ FAN_MAX := min_le_right _ _
  simp only [FAN_MAX] at *
  linarith

/-- Witness for C4 at the concrete input 80. -/
theorem duty_never_exceeds_max_witness :
    TEMP_MIN ≤ (80 : ℚ) ∧ duty 80 ≤ FAN_MAX * 100 / 255 :=
  ⟨by norm_num [TEMP_MIN], duty_never_exceeds_max 80 (by norm_num [TEMP_MIN])⟩

/-- C5: below the temperature floor the negative cubed term pushes the
duty strictly below `FAN_MIN * 100 / 255`: no clamping from below. -/
theorem duty_below_floor (temp : ℚ) (h : temp < TEMP_MIN) :
    duty temp < FAN_MIN * 100 / 255 := by
  have hneg : (temp - TEMP_MIN) ^ 3 < 0 :=
    Odd.pow_neg ⟨1, by norm_num⟩ (sub_neg.mpr h)
  have hspeed : calculate_fan_speed temp < FAN_MIN := by
    unfold calculate_fan_speed
    simp only [TEMP_MIN, TEMP_MAX, FAN_MIN, FAN_MAX] at *
    calc min (20 + (temp - 50) ^ 3 * (255 - 20) / (75 - 50) ^ 3) 255
        ≤ 20 + (temp - 50) ^ 3 * (255 - 20) / (75 - 50) ^ 3 :=
          min_le_left _ _
      _ < 20 := by linarith
  unfold duty
  simp only [FAN_MIN] at *
  linarith

/-- Witness for C5 at the concrete input 40. -/
theorem duty_below_floor_witness :
    (40 : ℚ) < TEMP_MIN ∧ duty 40 < FAN_MIN * 100 / 255 :=
  ⟨by norm_num [TEMP_MIN], duty_below_floor 40 (by norm_num [TEMP_MIN])⟩

/-! ## Time-series table and smoothing (`plot_custom_curve.py`) -/

/-- The ingested data frame of `plot_custom_curve.py`.  Each field is one
column; the five required series are always present, the two GPU series
only when the CSV has the corresponding column.  Timestamps are modelled
as rationals (the parsed chronological value), series values as exact
rationals standing in for floats. -/
@[ext]
structure Table where
  timestamp : List ℚ
  cpuTemp : List ℚ
  sysTemp : List ℚ
  peciTemp : List ℚ
  fanSpeed : List ℚ
  cpuUsage : List ℚ
  gpuTemp : Option (List ℚ)
  gpuFan : Option (List ℚ)
  deriving DecidableEq

/-- A valid table: every present column has as many entries as the
`Timestamp` column (one value per row). -/
def Table.valid (t : Table) : Prop :=
  t.cpuTemp.length = t.timestamp.length ∧
  t.sysTemp.length = t.timestamp.length ∧
  t.peciTemp.length = t.timestamp.length ∧
  t.fanSpeed.length = t.timestamp.length ∧
  t.cpuUsage.length = t.timestamp.length ∧
  (∀ c ∈ t.gpuTemp, c.length = t.timestamp.length) ∧
  (∀ c ∈ t.gpuFan, c.length = t.timestamp.length)

/-- Centered rolling mean, modelling
`s.rolling(window=w, center=True).mean()` with the default
`min_periods = w`: the window of `w` rows labelled at index `i` covers
`w/2` rows before `i` and `(w-1)/2` rows after it (pandas fixed-window
indexing with `center=True` places the extra row of an even window
before the label); an index without a full in-range window gets NaN,
modelled as `none`. -/
def rollingMean (w : Nat) (xs : List ℚ) : List (Option ℚ) :=
  (List.range xs.length).map fun i =>
    if w / 2 ≤ i ∧ i - w / 2 + w ≤ xs.length then
      some (((xs.drop (i - w / 2)).take w).sum / (w : ℚ))
    else none

/-- The smoothed columns inspected by `df.dropna()` (lines 20-28): the
five required series and, when present, the GPU series, each replaced by
its centered rolling mean. -/
def smoothCols (w : Nat) (t : Table) : List (List (Option ℚ)) :=
  [rollingMean w t.cpuTemp, rollingMean w t.sysTemp,
   rollingMean w t.peciTemp, rollingMean w t.fanSpeed,
   rollingMean w t.cpuUsage]
  ++ (t.gpuTemp.map (rollingMean w)).toList
  ++ (t.gpuFan.map (rollingMean w)).toList

/-- The row indices surviving `df.dropna()` (line 30): a row is kept iff
every smoothed column holds a value (`some`) there.  The `Timestamp`
column is untouched by smoothing and never NaN, so it never drops a
row. -/
def dropnaMask (n : Nat) (cols : List (List (Option ℚ))) : List Nat :=
  (List.range n).filter fun i => cols.all fun c => (c.getD i none).isSome

/-- Embedding of the smoothing branch (`plot_custom_curve.py` lines
18-30): every series column is replaced by its centered rolling mean
(GPU columns only when present), then `dropna` removes each row that
contains a NaN in any column.  `Timestamp` is not smoothed. -/
def smoothTable (w : Nat) (t : Table) : Table :=
  let mask := dropnaMask t.timestamp.length (smoothCols w t)
  { timestamp := mask.map fun i => t.timestamp.getD i 0
    cpuTemp := mask.map fun i => ((rollingMean w t.cpuTemp).getD i none).getD 0
    sysTemp := mask.map fun i => ((rollingMean w t.sysTemp).getD i none).getD 0
    peciTemp := mask.map fun i => ((rollingMean w t.peciTemp).getD i none).getD 0
    fanSpeed := mask.map fun i => ((rollingMean w t.fanSpeed).getD i none).getD 0
    cpuUsage := mask.map fun i => ((rollingMean w t.cpuUsage).getD i none).getD 0
    gpuTemp := t.gpuTemp.map fun c =>
      mask.map fun i => ((rollingMean w c).getD i none).getD 0
    gpuFan := t.gpuFan.map fun c =>
      mask.map fun i => ((rollingMean w c).getD i none).getD 0 }

/-- Embedding of `if smooth_window:` (line 18): Python truthiness makes
both `None` and `0` skip the smoothing branch entirely. -/
def applySmooth (w : Option Nat) (t : Table) : Table :=
  match w with
  | none => t
  | some w => if w = 0 then t else smoothTable w t

lemma rollingMean_length (w : Nat) (xs : List ℚ) :
    (rollingMean w xs).length = xs.length := by
  simp [rollingMean]

/-- Pointwise description of the rolling mean at an in-range index. -/
lemma rollingMean_getD (w : Nat) (xs : List ℚ) (i : Nat) (hi : i < xs.length) :
    (rollingMean w xs).getD i none =
      if w / 2 ≤ i ∧ i - w / 2 + w ≤ xs.length then
        some (((xs.drop (i - w / 2)).take w).sum / (w : ℚ))
      else none := by
  have hi' : i < (rollingMean w xs).length := by
    simpa [rollingMean_length] using hi
  rw [List.getD_eq_getElem _ _ hi']
  simp [rollingMean]

/-- The NaN pattern of a smoothed column: an index holds a value exactly
when its centered window lies fully inside the column. -/
lemma rollingMean_isSome (w : Nat) (xs : List ℚ) (i : Nat) (hi : i < xs.length) :
    ((rollingMean w xs).getD i none).isSome =
      decide (w / 2 ≤ i ∧ i - w / 2 + w ≤ xs.length) := by
  rw [rollingMean_getD w xs i hi]
  by_cases h : w / 2 ≤ i ∧ i - w / 2 + w ≤ xs.length
  · simp [h]
  · simp [h]

/-- Every column inspected by `dropna` after smoothing is the rolling
mean of a column of full table length. -/
lemma smoothCols_mem (w : Nat) (t : Table) (hv : t.valid) :
    ∀ c ∈ smoothCols w t, ∃ ys : List ℚ,
      ys.length = t.timestamp.length ∧ c = rollingMean w ys := by
  obtain ⟨h1, h2, h3, h4, h5, h6, h7⟩ := hv
  intro c hc
  cases hgt : t.gpuTemp with
  | none =>
      cases hgf : t.gpuFan with
      | none =>
          simp [smoothCols, hgt, hgf] at hc
          rcases hc with hc | hc | hc | hc | hc
          · exact ⟨t.cpuTemp, h1, hc⟩
          · exact ⟨t.sysTemp, h2, hc⟩
          · exact ⟨t.peciTemp, h3, hc⟩
          · exact ⟨t.fanSpeed, h4, hc⟩
          · exact ⟨t.cpuUsage, h5, hc⟩
      | some gf =>
          simp [smoothCols, hgt, hgf] at hc
          rcases hc with hc | hc | hc | hc | hc | hc
          · exact ⟨t.cpuTemp, h1, hc⟩
          · exact ⟨t.sysTemp, h2, hc⟩
          · exact ⟨t.peciTemp, h3, hc⟩
          · exact ⟨t.fanSpeed, h4, hc⟩
          · exact ⟨t.cpuUsage, h5, hc⟩
          · exact ⟨gf, h7 gf (by rw [hgf]; rfl), hc⟩
  | some gt =>
      cases hgf : t.gpuFan with
      | none =>
          simp [smoothCols, hgt, hgf] at hc
          rcases hc with hc | hc | hc | hc | hc | hc
          · exact ⟨t.cpuTemp, h1, hc⟩
          · exact ⟨t.sysTemp, h2, hc⟩
          · exact ⟨t.peciTemp, h3, hc⟩
          · exact ⟨t.fanSpeed, h4, hc⟩
          · exact ⟨t.cpuUsage, h5, hc⟩
          · exact ⟨gt, h6 gt (by rw [hgt]; rfl), hc⟩
      | some gf =>
          simp [smoothCols, hgt, hgf] at hc
          rcases hc with hc | hc | hc | hc | hc | hc | hc
          · exact ⟨t.cpuTemp, h1, hc⟩
          · exact ⟨t.sysTemp, h2, hc⟩
          · exact ⟨t.peciTemp, h3, hc⟩
          · exact ⟨t.fanSpeed, h4, hc⟩
          · exact ⟨t.cpuUsage, h5, hc⟩
          · exact ⟨gt, h6 gt (by rw [hgt]; rfl), hc⟩
          · exact ⟨gf, h7 gf (by rw [hgf]; rfl), hc⟩

lemma smoothCols_ne_nil (w : Nat) (t : Table) : smoothCols w t ≠ [] := by
  simp [smoothCols]

/-- `all` over a nonempty list whose entries agree on a single boolean. -/
lemma all_eq_of_forall_eq {α : Type} (cols : List α) (f : α → Bool) (v : Bool)
    (hne : cols ≠ []) (h : ∀ c ∈ cols, f c = v) : cols.all f = v := by
  cases cols with
  | nil => exact absurd rfl hne
  | cons c cs =>
      cases v with
      | false =>
          have hc := h c (List.mem_cons_self c cs)
          simp [List.all_cons, hc]
      | true =>
          rw [List.all_eq_true]
          intro x hx
          exact h x hx

/-- After smoothing every column has the same NaN pattern, so the
`dropna` mask is determined by the window geometry alone. -/
lemma dropnaMask_smooth_filter (w : Nat) (t : Table) (hv : t.valid) :
    dropnaMask t.timestamp.length (smoothCols w t)
      = (List.range t.timestamp.length).filter fun i =>
          decide (w / 2 ≤ i ∧
            i - w / 2 + w ≤ t.timestamp.length) := by
  unfold dropnaMask
  apply List.filter_congr
  intro i hi
  have hi' : i < t.timestamp.length := List.mem_range.mp hi
  apply all_eq_of_forall_eq _ _ _ (smoothCols_ne_nil w t)
  intro c hc
  obtain ⟨ys, hlen, rfl⟩ := smoothCols_mem w t hv c hc
  rw [rollingMean_isSome w ys i (by omega), hlen]

/-- Filtering an initial range by an interval yields a contiguous
range. -/
lemma filter_range_interval (a b : Nat) : ∀ n : Nat,
    ((List.range n).filter fun i => decide (a ≤ i ∧ i < b))
      = List.range' a (min b n - a) := by
  intro n
  induction n with
  | zero => simp
  | succ n ih =>
      rw [List.range_succ, List.filter_append, ih]
      by_cases h : a ≤ n ∧ n < b
      · have hmn : min b n - a = n - a := by omega
        have hab : min b (n + 1) - a = (n - a) + 1 := by omega
        have hfilter :
            List.filter (fun i => decide (a ≤ i ∧ i < b)) [n] = [n] := by
          simp [h]
        rw [hfilter, hmn, hab, List.range'_1_concat]
        have hn : a + (n - a) = n := by omega
        rw [hn]
      · have hab : min b (n + 1) - a = min b n - a := by omega
        have hfilter :
            List.filter (fun i => decide (a ≤ i ∧ i < b)) [n] = [] := by
          simp [h]
        rw [hfilter, hab, List.append_nil]

/-- The `dropna` mask after smoothing is the contiguous block of indices
whose centered window fits. -/
lemma dropnaMask_smooth_range (w : Nat) (t : Table) (hv : t.valid) :
    dropnaMask t.timestamp.length (smoothCols w t)
      = List.range' (w / 2)
          (min (t.timestamp.length + w / 2 + 1 - w) t.timestamp.length
            - w / 2) := by
  rw [dropnaMask_smooth_filter w t hv]
  rw [show (fun i => decide (w / 2 ≤ i ∧
        i - w / 2 + w ≤ t.timestamp.length))
      = (fun i => decide (w / 2 ≤ i ∧
        i < t.timestamp.length + w / 2 + 1 - w)) from
    funext fun i => by rw [decide_eq_decide]; omega]
  exact filter_range_interval _ _ _

/-- Reading a length-`n` list back off `range n` is the identity. -/
lemma map_range_getD (n : Nat) (xs : List ℚ) (h : xs.length = n) :
    (List.range n).map (fun i => xs.getD i 0) = xs := by
  subst h
  apply List.ext_getElem
  · simp
  · intro i h1 h2
    simp only [List.getElem_map, List.getElem_range]
    exact List.getD_eq_getElem _ _ h2

/-- A concrete 4-row table without GPU columns, used in witnesses. -/
def sampleTable : Table :=
  { timestamp := [0, 1, 2, 3]
    cpuTemp := [50, 52, 54, 56]
    sysTemp := [40, 41, 42, 43]
    peciTemp := [45, 46, 47, 48]
    fanSpeed := [10, 20, 30, 40]
    cpuUsage := [5, 15, 25, 35]
    gpuTemp := none
    gpuFan := none }

lemma sampleTable_valid : sampleTable.valid := by
  refine ⟨rfl, rfl, rfl, rfl, rfl, ?_, ?_⟩ <;> simp [sampleTable]

/-- C2: for a valid table with `n` rows and positive window `w`,
smoothing followed by `dropna` keeps exactly `n - (w - 1)` rows when
`w ≤ n`, and zero rows when `w > n`; the empty result is an ordinary
value of the (total) smoothing function, not an error. -/
theorem smoothed_row_count (t : Table) (w : Nat) (hv : t.valid)
    (hw : 1 ≤ w) :
    (w ≤ t.timestamp.length →
        (smoothTable w t).timestamp.length
          = t.timestamp.length - (w - 1)) ∧
      (t.timestamp.length < w →
        (smoothTable w t).timestamp.length = 0) := by
  have hmask := dropnaMask_smooth_range w t hv
  constructor <;> intro hcase <;>
    simp only [smoothTable, hmask, List.length_map, List.length_range'] <;>
    omega

/-- Witness for C2: a 4-row table with window 2 keeps 3 rows, applied
through the row-count theorem. -/
theorem smoothed_row_count_witness :
    sampleTable.valid ∧ 1 ≤ 2 ∧
      ((2 ≤ sampleTable.timestamp.length →
          (smoothTable 2 sampleTable).timestamp.length
            = sampleTable.timestamp.length - (2 - 1)) ∧
        (sampleTable.timestamp.length < 2 →
          (smoothTable 2 sampleTable).timestamp.length = 0)) :=
  ⟨sampleTable_valid, by norm_num,
    smoothed_row_count sampleTable 2 sampleTable_valid (by norm_num)⟩

/-- C10: smoothing touches only the numeric series; the timestamps of
the smoothed table are a sublist of the original timestamps (original
values, original relative order), and the retained row `j` carries the
timestamp of original row `j + w/2`. -/
theorem smoothing_keeps_timestamps (t : Table) (w : Nat) (hv : t.valid)
    (hw : 1 ≤ w) :
    (smoothTable w t).timestamp.Sublist t.timestamp ∧
      ∀ j, j < (smoothTable w t).timestamp.length →
        (smoothTable w t).timestamp.getD j 0
          = t.timestamp.getD (j + w / 2) 0 := by
  have hmask := dropnaMask_smooth_range w t hv
  constructor
  · have hsub : List.Sublist (dropnaMask t.timestamp.length (smoothCols w t))
        (List.range t.timestamp.length) := by
      unfold dropnaMask
      exact List.filter_sublist _
    have hmap := hsub.map fun i => t.timestamp.getD i 0
    rw [map_range_getD t.timestamp.length t.timestamp rfl] at hmap
    simpa only [smoothTable] using hmap
  · intro j hj
    simp only [smoothTable, hmask, List.length_map, List.length_range'] at hj ⊢
    rw [List.getD_eq_getElem _ _ (by simpa using hj)]
    rw [List.getElem_map]
    rw [List.getElem_range']
    simp [Nat.add_comm]

/-- Witness for C10: a 4-row table with window 2, applied through the
timestamp-preservation theorem. -/
theorem smoothing_keeps_timestamps_witness :
    sampleTable.valid ∧ 1 ≤ 2 ∧
      ((smoothTable 2 sampleTable).timestamp.Sublist sampleTable.timestamp ∧
        ∀ j, j < (smoothTable 2 sampleTable).timestamp.length →
          (smoothTable 2 sampleTable).timestamp.getD j 0
            = sampleTable.timestamp.getD (j + 2 / 2) 0) :=
  ⟨sampleTable_valid, by norm_num,
    smoothing_keeps_timestamps sampleTable 2 sampleTable_valid (by norm_num)⟩

/-- A window of one averages each row with itself. -/
lemma rollingMean_one (xs : List ℚ) : rollingMean 1 xs = xs.map some := by
  apply List.ext_getElem
  · simp [rollingMean]
  · intro i h1 h2
    have hi : i < xs.length := by simpa using h2
    simp only [rollingMean, List.getElem_map, List.getElem_range]
    rw [if_pos (by omega : 1 / 2 ≤ i ∧ i - 1 / 2 + 1 ≤ xs.length)]
    have h0 : i - 1 / 2 = i := by omega
    rw [h0, List.drop_eq_getElem_cons hi,
      show List.take 1 (xs[i] :: xs.drop (i + 1)) = [xs[i]] from rfl]
    simp

/-- Reading a window-one smoothed column back off `range n` returns the
original column. -/
lemma map_range_rollingMean_one (n : Nat) (xs : List ℚ) (h : xs.length = n) :
    (List.range n).map (fun i => ((rollingMean 1 xs).getD i none).getD 0)
      = xs := by
  subst h
  apply List.ext_getElem
  · simp
  · intro i h1 h2
    simp only [List.getElem_map, List.getElem_range, rollingMean_one]
    rw [List.getD_eq_getElem _ _ (by simpa using h2)]
    simp

/-- With window one no row holds a NaN, so `dropna` keeps every row. -/
lemma dropnaMask_one (t : Table) (hv : t.valid) :
    dropnaMask t.timestamp.length (smoothCols 1 t)
      = List.range t.timestamp.length := by
  rw [dropnaMask_smooth_filter 1 t hv]
  apply List.filter_eq_self.mpr
  intro i hi
  simp only [decide_eq_true_eq]
  have := List.mem_range.mp hi
  omega

/-- Smoothing with window one is the identity on whole tables. -/
lemma smoothTable_one (t : Table) (hv : t.valid) : smoothTable 1 t = t := by
  obtain ⟨h1, h2, h3, h4, h5, h6, h7⟩ := hv
  have hmask := dropnaMask_one t ⟨h1, h2, h3, h4, h5, h6, h7⟩
  apply Table.ext
  · simp only [smoothTable, hmask]
    exact map_range_getD _ _ rfl
  · simp only [smoothTable, hmask]
    exact map_range_rollingMean_one _ _ h1
  · simp only [smoothTable, hmask]
    exact map_range_rollingMean_one _ _ h2
  · simp only [smoothTable, hmask]
    exact map_range_rollingMean_one _ _ h3
  · simp only [smoothTable, hmask]
    exact map_range_rollingMean_one _ _ h4
  · simp only [smoothTable, hmask]
    exact map_range_rollingMean_one _ _ h5
  · simp only [smoothTable, hmask]
    cases hgt : t.gpuTemp with
    | none => rfl
    | some ys =>
        simp only [Option.map_some']
        congr 1
        exact map_range_rollingMean_one _ _ (h6 ys (by rw [hgt]; rfl))
  · simp only [smoothTable, hmask]
    cases hgf : t.gpuFan with
    | none => rfl
    | some ys =>
        simp only [Option.map_some']
        congr 1
        exact map_range_rollingMean_one _ _ (h7 ys (by rw [hgf]; rfl))

/-- C6: smoothing with window 1 leaves row count and every series value
unchanged, and an absent (`None`) or zero window skips smoothing
entirely (Python truthiness), so each is the identity transform. -/
theorem smoothing_identity (t : Table) (hv : t.valid) :
    applySmooth (some 1) t = t ∧ applySmooth none t = t ∧
      applySmooth (some 0) t = t := by
  refine ⟨?_, rfl, ?_⟩
  · simpa [applySmooth] using smoothTable_one t hv
  · simp [applySmooth]

/-- Witness for C6 on the concrete 4-row table. -/
theorem smoothing_identity_witness :
    sampleTable.valid ∧
      (applySmooth (some 1) sampleTable = sampleTable ∧
        applySmooth none sampleTable = sampleTable ∧
        applySmooth (some 0) sampleTable = sampleTable) :=
  ⟨sampleTable_valid, smoothing_identity sampleTable sampleTable_valid⟩

/-! ## Legend assembly and program outcomes (`plot_custom_curve.py`) -/

/-- The seven possible entries of the combined legend. -/
inductive LegendEntry where
  | cpuTemp
  | sysTemp
  | peciTemp
  | gpuTemp
  | fanSpeed
  | cpuLoad
  | gpuFan
  deriving DecidableEq

/-- Embedding of the legend assembly (`plot_custom_curve.py` lines
76-86): start from the three temperature handles, append the GPU
temperature handle when that column exists, then the fan-speed and
CPU-load handles, then the GPU fan handle when that column exists. -/
def buildLegend (hasGpuTemp hasGpuFan : Bool) : List LegendEntry :=
  let lines := [LegendEntry.cpuTemp, LegendEntry.sysTemp, LegendEntry.peciTemp]
  let lines := if hasGpuTemp then lines ++ [LegendEntry.gpuTemp] else lines
  let lines := lines ++ [LegendEntry.fanSpeed, LegendEntry.cpuLoad]
  let lines := if hasGpuFan then lines ++ [LegendEntry.gpuFan] else lines
  lines

/-- Whether an entry's series is present, given the optional-column
flags; the five required entries are always present. -/
def entryPresent (hasGpuTemp hasGpuFan : Bool) : LegendEntry → Bool
  | LegendEntry.gpuTemp => hasGpuTemp
  | LegendEntry.gpuFan => hasGpuFan
  | _ => true

/-- The fixed full legend order stated by the spec: CPU temp, system
temp, PECI temp, [GPU temp], fan speed, CPU load, [GPU fan]. -/
def fullLegendOrder : List LegendEntry :=
  [LegendEntry.cpuTemp, LegendEntry.sysTemp, LegendEntry.peciTemp,
   LegendEntry.gpuTemp, LegendEntry.fanSpeed, LegendEntry.cpuLoad,
   LegendEntry.gpuFan]

/-- C9: for every combination of optional series, the legend is the
fixed seven-entry order restricted to the present series (optional
entries sit at their fixed position, never appended at the end), with
5 entries when no optional series is present and up to 7 with both. -/
theorem legend_fixed_order (hasGpuTemp hasGpuFan : Bool) :
    buildLegend hasGpuTemp hasGpuFan
        = fullLegendOrder.filter (entryPresent hasGpuTemp hasGpuFan) ∧
      (buildLegend hasGpuTemp hasGpuFan).length
        = 5 + (cond hasGpuTemp 1 0) + (cond hasGpuFan 1 0) := by
  cases hasGpuTemp <;> cases hasGpuFan <;> exact ⟨rfl, rfl⟩

/-- Arithmetic mean of a column, `none` when the table has no rows:
pandas `Series.mean()` yields NaN on an empty column instead of
raising. -/
def seriesMean (xs : List ℚ) : Option ℚ :=
  if xs.length = 0 then none else some (xs.sum / (xs.length : ℚ))

/-- Model of reading the input file (`pd.read_csv` at line 12 together
with the exception classes handled at lines 108-113).  Per the pandas
contract, `EmptyDataError` is raised only when the file yields no
columns at all (empty or whitespace-only file); a file holding a header
row and zero data rows parses to a table with zero rows. -/
inductive ReadResult where
  | notFound
  | noColumns
  | parsed (t : Table)

/-- The observable outcome of one invocation: either a saved chart
(output name data, row count, the five required series means with NaN
as `none`, legend) or a printed message with a nonzero exit code. -/
inductive ProgResult where
  | success (outputFile : String) (rows : Nat) (stats : List (Option ℚ))
      (legend : List LegendEntry)
  | failure (exitCode : Nat) (msg : String)

/-- Output naming (lines 97-100): stem plus `_smooth<w>` suffix when a
truthy window was given, plus `.png`.  The `Path(csv_file).stem` call
is a path-library operation; the name recorded here applies the suffix
rule to the stem it returns. -/
def outputName (stem : String) (smooth_window : Option Nat) : String :=
  stem ++
    (match smooth_window with
      | none => ""
      | some w => if w = 0 then "" else "_smooth" ++ toString w) ++
    ".png"

/-- Embedding of `plot_temperature_data` (lines 9-116): read, smooth,
summarize, render.  The failure branches mirror the `except` clauses
(messages without the quote characters around the name); the success
branch records the derived data of the saved chart. -/
def plot_temperature_data (csv_file : String) (input : ReadResult)
    (smooth_window : Option Nat) : ProgResult :=
  match input with
  | ReadResult.notFound =>
      ProgResult.failure 1 ("Error: File " ++ csv_file ++ " not found.")
  | ReadResult.noColumns =>
      ProgResult.failure 1 ("Error: File " ++ csv_file ++ " is empty.")
  | ReadResult.parsed t =>
      let df := applySmooth smooth_window t
      ProgResult.success (outputName csv_file smooth_window)
        df.timestamp.length
        [seriesMean df.cpuTemp, seriesMean df.sysTemp,
         seriesMean df.peciTemp, seriesMean df.fanSpeed,
         seriesMean df.cpuUsage]
        (buildLegend df.gpuTemp.isSome df.gpuFan.isSome)

/-- C8: a missing input file yields exit code 1 and a message
containing the given file name. -/
theorem missing_file_error (csv_file : String) (w : Option Nat) :
    ∃ pre post,
      plot_temperature_data csv_file ReadResult.notFound w
        = ProgResult.failure 1 (pre ++ csv_file ++ post) :=
  ⟨"Error: File ", " not found.", rfl⟩

/-- The header-only input: all required columns exist, zero data rows. -/
def headerOnlyTable : Table :=
  { timestamp := []
    cpuTemp := []
    sysTemp := []
    peciTemp := []
    fanSpeed := []
    cpuUsage := []
    gpuTemp := none
    gpuFan := none }

/-- C7 fails on the code: a file with a header row and zero data rows
parses to an empty table (no `EmptyDataError`), so the program saves a
chart whose statistics are all NaN and exits successfully instead of
failing with the distinct empty-file message. -/
theorem header_only_not_empty_error :
    plot_temperature_data "data.csv" (ReadResult.parsed headerOnlyTable) none
      = ProgResult.success (outputName "data.csv" none) 0
          [none, none, none, none, none] (buildLegend false false) := rfl
